import Mathlib

/-!
Verification development for the DNS resolution subsystem of a Clash-family
proxy (`clash_lib/src/app/dns/resolver.rs`).

The Rust code is shallowly embedded: pure helpers become Lean functions,
the stateful pipeline (`exchange`, `exchange_no_cache`, `resolve_v4`,
`resolve_v6`, `resolve`) becomes explicit state passing over the resolver
state.  Asynchronous upstream batches are abstracted by an oracle
`Batch : List ClientId → Message → Except Nat Message`; which pool a call
goes to is recorded in an explicit call log so that routing claims
("the query is sent only to ...") are statable.  A Rust panic
(`unreachable!`, `.unwrap()` on `None`, `select_all` on an empty vector)
is modelled by the dedicated outcome `RunResult.panicked`.

Components of the repository that the resolver uses but whose sources are
not included under `src/` (the string trie `common::trie::StringTrie` and
the fake-IP engine `dns::fakeip`) are modelled from the specification, as
marked on their declarations.  The LRU cache comes from the external crate
`lru_time_cache`; its model is justified at its declaration.
-/

/-- An IP address: a v4 address as a 32-bit value or a v6 address as a
128-bit value, both carried as `Nat`. -/
inductive IpAddr where
  | v4 (addr : Nat)
  | v6 (addr : Nat)
deriving DecidableEq, Repr

/-- DNS record types used by the resolver (`hickory_proto::rr::RecordType`,
restricted to the constructors the embedded code inspects, plus `CNAME`
standing for any other type). -/
inductive RecordType where
  | A
  | AAAA
  | TXT
  | CNAME
deriving DecidableEq, Repr

/-- DNS classes (`hickory_proto::rr::DNSClass`): `IN` plus one other class
(`CH`) so that non-`IN` questions are representable. -/
inductive DNSClass where
  | IN
  | CH
deriving DecidableEq, Repr

/-- Record data (`hickory_proto::rr::RData`), restricted to the variants
the resolver inspects plus `txt`/`cname` standing for the rest. -/
inductive RData where
  | a (addr : Nat)
  | aaaa (addr : Nat)
  | txt (s : String)
  | cname (s : String)
deriving DecidableEq, Repr

/-- A resource record.  `data` is an `Option` because hickory parses a
record with RDLENGTH 0 as having no RDATA (`Record::data() → Option`). -/
structure Record where
  rtype : RecordType
  data : Option RData
  ttl : Nat
deriving DecidableEq, Repr

/-- A DNS question (`hickory_proto::op::Query`): the name is carried as its
ASCII rendering (the embedding of `Name::to_ascii()`), so an FQDN carries
its trailing dot. -/
structure Query where
  name : String
  qtype : RecordType
  qclass : DNSClass
deriving DecidableEq, Repr

/-- A DNS message (`hickory_proto::op::Message`), restricted to the fields
the resolver reads: the question section, the three record sections and the
RD flag. -/
structure Message where
  queries : List Query
  answers : List Record
  nameServers : List Record
  additionals : List Record
  recursionDesired : Bool
deriving DecidableEq, Repr

/-- Typed errors of the resolver pipeline (§7 of the specification).
`upstream n` stands for any error surfaced by a batch of upstream clients
(a transport error or the 10 s batch timeout), carrying an opaque code. -/
inductive DnsError where
  | invalidQuery
  | invalidDomain
  | noRecord
  | ipv6Disabled
  | upstream (code : Nat)
deriving DecidableEq, Repr

/-- Outcome of an embedded fallible computation: success, a typed error, or
a Rust panic (`unreachable!` / `.unwrap()` on `None` / `select_all` on an
empty list). -/
inductive RunResult (α : Type) where
  | ok (val : α)
  | err (e : DnsError)
  | panicked
deriving DecidableEq, Repr

/-- Upstream clients are identified by an opaque id; the resolver only ever
passes whole client lists to `batch_exchange`. -/
abbrev ClientId := Nat

/-- Oracle for `Resolver::batch_exchange`: given a client list and a query
message, the first-success result of racing those clients, or an upstream
error code (transport error or batch timeout).  The oracle abstracts the
network and the concurrency of `select_ok`; the routing itself (which list
is passed) is what the embedded code decides. -/
abbrev Batch := List ClientId → Message → Except Nat Message

/-- Lift a batch outcome into the pipeline's result type. -/
def liftB (r : Except Nat Message) : RunResult Message :=
  match r with
  | .ok m => .ok m
  | .error n => .err (.upstream n)

/-- One entry of the call log: which pool a `batch_exchange` call was
issued over. -/
inductive PoolCall where
  | policyP (clients : List ClientId)
  | mainP
  | fallbackP
deriving DecidableEq, Repr

/-- An IPv4 network (`ipnet::Ipv4Net`): base address and prefix length. -/
structure Ipv4Net where
  addr : Nat
  prefixLen : Nat
deriving DecidableEq, Repr

/-- Membership of a v4 address in the network: the two addresses agree on
the top `prefixLen` bits. -/
def Ipv4Net.containsV4 (n : Ipv4Net) (ip : Nat) : Bool :=
  ip / 2 ^ (32 - n.prefixLen) == n.addr / 2 ^ (32 - n.prefixLen)

/-- Modelled from the spec: the repository's `common::trie::StringTrie` is
not included under `src/`.  Per §4.B it offers `insert(pattern, value)` and
`search(name) → value?` over dot-separated labels, with `*` matching
exactly one label, a `+.` prefix matching the domain and all subdomains,
case-insensitive matching, ties broken by depth (longest match wins) then
by specificity (exact > `*` > `+`).  The model keeps the pattern/value
pairs in a list and implements that matching discipline directly. -/
structure StringTrie (α : Type) where
  entries : List (String × α)
deriving Repr, DecidableEq

/-- Split a character list into dot-separated labels, lower-casing each
character (structural recursion so that concrete searches evaluate). -/
def splitDotsAux : List Char → List Char → List String
  | [], acc => [String.mk acc.reverse]
  | c :: cs, acc =>
    if c = '.' then String.mk acc.reverse :: splitDotsAux cs []
    else splitDotsAux cs (c.toLower :: acc)

/-- Lower-case a name and split it into its dot-separated labels. -/
def splitLabels (s : String) : List String :=
  splitDotsAux s.toList []

/-- Embeds `str::starts_with` (structural recursion so that concrete calls
evaluate). -/
def strStartsWith (s pat : String) : Bool :=
  pat.toList.isPrefixOf s.toList

/-- Embeds `str::ends_with`. -/
def strEndsWith (s pat : String) : Bool :=
  pat.toList.isSuffixOf s.toList

/-- Split a character list on a separator character. -/
def splitOnChar (sep : Char) : List Char → List Char → List (List Char)
  | [], acc => [acc.reverse]
  | c :: cs, acc =>
    if c = sep then acc.reverse :: splitOnChar sep cs []
    else splitOnChar sep cs (c :: acc)

/-- Label-wise matching of a wildcard-free or `*`-bearing pattern: `*`
matches exactly one label, any other pattern label must equal the name
label. -/
def matchPlain : List String → List String → Bool
  | [], [] => true
  | p :: ps, n :: ns => (p == "*" || p == n) && matchPlain ps ns
  | _, _ => false

/-- Whether a pattern matches a name (given as its label list).  A leading
`+` label matches the remaining pattern against the name itself and every
label-suffix of it (the domain and all subdomains). -/
def patMatches (pat : String) (nameLabels : List String) : Bool :=
  match splitLabels pat with
  | "+" :: rest =>
    (List.range (nameLabels.length + 1)).any fun k => nameLabels.drop k == rest
  | pl => matchPlain pl nameLabels

/-- Depth of a pattern: its number of labels. -/
def patDepth (pat : String) : Nat := (splitLabels pat).length

/-- Specificity rank of a pattern: exact (2) > `*` (1) > `+` (0). -/
def patRank (pat : String) : Nat :=
  let pl := splitLabels pat
  if pl.contains "+" then 0 else if pl.contains "*" then 1 else 2

/-- Operation `search(name)`: the value of the best-matching pattern, best meaning
greatest depth, ties broken by specificity. -/
def StringTrie.search {α : Type} (t : StringTrie α) (name : String) : Option α :=
  let nl := splitLabels name
  let cands := t.entries.filter fun e => patMatches e.1 nl
  let best := cands.foldl
    (fun acc e =>
      match acc with
      | none => some e
      | some b =>
        if patDepth e.1 > patDepth b.1
            ∨ (patDepth e.1 = patDepth b.1 ∧ patRank e.1 > patRank b.1)
        then some e else some b)
    none
  best.map (·.2)

/-- Operation `insert(pattern, value)`: replace any entry with the same pattern, else
append. -/
def StringTrie.insert {α : Type} (t : StringTrie α) (pat : String) (v : α) :
    StringTrie α :=
  if t.entries.any (fun e => e.1 == pat) then
    ⟨t.entries.map fun e => if e.1 == pat then (pat, v) else e⟩
  else ⟨t.entries ++ [(pat, v)]⟩

/-- Model of `lru_time_cache::LruCache<String, Message>` as used by the
resolver.  `entries` is ordered most-recently-used first; each entry keeps
its insertion instant.  The source reads the cache with
`lru.read().await.peek(key)` — `peek` takes the cache by shared reference
through a read-lock guard, so it cannot reorder the entries; it returns a
live (non-expired) entry's value and treats expired entries as absent.
`insert` (taken by the write guard) replaces any entry with the same key,
puts the new entry at the most-recent position, and evicts from the
least-recently-used end down to the capacity. -/
structure LruCacheM where
  entries : List (String × Message × Nat)
  capacity : Nat
  ttl : Nat
deriving DecidableEq, Repr

/-- An entry inserted at instant `t` is expired at instant `now` when its
time-to-live has fully elapsed. -/
def LruCacheM.expired (c : LruCacheM) (now t : Nat) : Bool :=
  t + c.ttl ≤ now

/-- Operation `peek`: the value stored under `key` if present and not expired; the
cache itself is untouched (shared-reference access). -/
def LruCacheM.peek (c : LruCacheM) (now : Nat) (key : String) :
    Option Message :=
  match c.entries.find? (fun e => e.1 == key) with
  | some e => if c.expired now e.2.2 then none else some e.2.1
  | none => none

/-- Operation `insert`: drop any previous entry for `key`, prepend the fresh entry,
truncate to capacity (evicting from the least-recently-used end). -/
def LruCacheM.insert (c : LruCacheM) (now : Nat) (key : String) (v : Message) :
    LruCacheM :=
  let rest := c.entries.filter fun e => !(e.1 == key)
  { c with entries := (key, v, now) :: rest.take (c.capacity - 1) }

/-- Modelled from the spec: the fake-IP engine (`dns::fakeip::FakeDns`) is
not included under `src/`.  Per §4.G it keeps the configured CIDR, the
skipped-hostnames trie and a bidirectional host↔ip mapping with an
allocation cursor; `lookup` returns an existing mapping or mints the next
free address starting at `network + 2`, never allocating the network
address, `network + 1` or the broadcast address. -/
structure FakeDns where
  ipnet : Ipv4Net
  skippedHostnames : Option (StringTrie Bool)
  mapping : List (String × Nat × Nat)
  cursor : Nat

/-- Operation `should_skip(host)`: whether the host matches the skipped-hostnames
trie. -/
def FakeDns.should_skip (fd : FakeDns) (host : String) : Bool :=
  match fd.skippedHostnames with
  | some t => (t.search host).isSome
  | none => false

/-- Operation `is_fake_ip(ip)`: whether the address lies in the configured CIDR
(only v4 addresses can be fake). -/
def FakeDns.is_fake_ip (fd : FakeDns) (ip : IpAddr) : Bool :=
  match ip with
  | .v4 a => fd.ipnet.containsV4 a
  | .v6 _ => false

/-- Operation `exist(ip)`: whether a mapping exists for the address. -/
def FakeDns.exist (fd : FakeDns) (ip : IpAddr) : Bool :=
  match ip with
  | .v4 a => fd.mapping.any fun e => e.2.1 == a
  | .v6 _ => false

/-- Operation `reverse_lookup(ip)`: the mapped host, or `none` when the address is
outside the CIDR or unmapped. -/
def FakeDns.reverse_lookup (fd : FakeDns) (ip : IpAddr) : Option String :=
  match ip with
  | .v4 a =>
    if fd.ipnet.containsV4 a then
      (fd.mapping.find? fun e => e.2.1 == a).map (·.1)
    else none
  | .v6 _ => none

/-- First two host addresses and the broadcast address of the CIDR are
reserved; the allocatable range is `[network + 2, broadcast - 1]`. -/
def FakeDns.poolFirst (fd : FakeDns) : Nat :=
  fd.ipnet.addr / 2 ^ (32 - fd.ipnet.prefixLen) * 2 ^ (32 - fd.ipnet.prefixLen) + 2

def FakeDns.poolLast (fd : FakeDns) : Nat :=
  fd.ipnet.addr / 2 ^ (32 - fd.ipnet.prefixLen) * 2 ^ (32 - fd.ipnet.prefixLen)
    + 2 ^ (32 - fd.ipnet.prefixLen) - 2

/-- Operation `lookup(host)`: return the existing mapping (touching its recency), or
scan from the cursor for a free address; when the pool is exhausted evict
the least-recently-accessed mapping and reuse its address. -/
def FakeDns.lookup (fd : FakeDns) (host : String) (now : Nat) :
    Nat × FakeDns :=
  match fd.mapping.find? (fun e => e.1 == host) with
  | some e =>
    (e.2.1,
      { fd with
        mapping := fd.mapping.map fun e2 =>
          if e2.1 == host then (e2.1, e2.2.1, now) else e2 })
  | none =>
    let size := fd.poolLast + 1 - fd.poolFirst
    let free := (List.range size).find? fun k =>
      let ip := fd.poolFirst + (fd.cursor - fd.poolFirst + k) % size
      !(fd.mapping.any fun e => e.2.1 == ip)
    match free with
    | some k =>
      let ip := fd.poolFirst + (fd.cursor - fd.poolFirst + k) % size
      (ip,
        { fd with
          mapping := (host, ip, now) :: fd.mapping
          cursor := fd.poolFirst + (ip + 1 - fd.poolFirst) % size })
    | none =>
      let oldest := fd.mapping.foldl
        (fun acc e =>
          match acc with
          | none => some e
          | some b => if e.2.2 < b.2.2 then some e else some b)
        none
      match oldest with
      | some old =>
        (old.2.1,
          { fd with
            mapping := (host, old.2.1, now) ::
              fd.mapping.filter fun e => !(e.1 == old.1) })
      | none => (fd.poolFirst, fd)

/-- The resolver state (`Resolver` struct).  Domain filters are trait
objects `apply(domain) → bool`, modelled as functions; likewise IP
filters.  The LRU cache and the fake-IP engine are the only mutable parts;
the embedded pipeline functions return the updated state. -/
structure Resolver where
  ipv6 : Bool
  hosts : Option (StringTrie IpAddr)
  main : List ClientId
  fallback : Option (List ClientId)
  fallback_domain_filters : Option (List (String → Bool))
  fallback_ip_filters : Option (List (IpAddr → Bool))
  lru_cache : Option LruCacheM
  policy : Option (StringTrie (List ClientId))
  fake_dns : Option FakeDns

namespace Resolver

/-- Cache key of a question: the `Display` rendering `q.to_string()` of the
hickory query (an external dependency).  The exact text layout is not
needed by any theorem below — only that the key is a function of the
question's name (as rendered by `to_ascii`), class and type. -/
def queryKey (q : Query) : String :=
  q.name ++ " "
    ++ (match q.qclass with | .IN => "IN" | .CH => "CH") ++ " "
    ++ (match q.qtype with
        | .A => "A" | .AAAA => "AAAA" | .TXT => "TXT" | .CNAME => "CNAME")

/-- Embeds `str::trim_matches('.')`: strip leading and trailing dots. -/
def trimDots (s : String) : String :=
  String.mk (((s.toList.dropWhile (· = '.')).reverse.dropWhile (· = '.')).reverse)

/-- Embeds `Resolver::is_ip_request`: class `IN` and type `A` or `AAAA`. -/
def is_ip_request (q : Query) : Bool :=
  q.qclass == .IN && (q.qtype == .A || q.qtype == .AAAA)

/-- Embeds `Resolver::domain_name_of_message`: the first question's name with the
surrounding dots trimmed. -/
def domain_name_of_message (m : Message) : Option String :=
  m.queries.head?.map fun q => trimDots q.name

/-- Embeds `Resolver::ip_list_of_message`: every answer record of type `A` or
`AAAA`, mapped to its address.  A selected record whose RDATA is absent or
of another type hits `unreachable!` in the source; the model returns
`none` for that panic. -/
def ip_list_of_message (m : Message) : Option (List IpAddr) :=
  (m.answers.filter fun r => r.rtype == .A || r.rtype == .AAAA).mapM
    fun r =>
      match r.data with
      | some (.a v) => some (IpAddr.v4 v)
      | some (.aaaa v) => some (IpAddr.v6 v)
      | some _ => none
      | none => none

/-- Embeds `Resolver::match_policy`: the policy trie is consulted only when the
fallback pool, the fallback domain filters and the policy trie are all
configured. -/
def match_policy (r : Resolver) (m : Message) : Option (List ClientId) :=
  match r.fallback, r.fallback_domain_filters, r.policy with
  | some _, some _, some p =>
    match domain_name_of_message m with
    | some domain => p.search domain
    | none => none
  | _, _, _ => none

/-- Embeds `Resolver::should_only_query_fallback`: some fallback domain filter
accepts the question's name (requires the fallback pool and the filters to
be configured). -/
def should_only_query_fallback (r : Resolver) (m : Message) : Bool :=
  match r.fallback, r.fallback_domain_filters with
  | some _, some filters =>
    match domain_name_of_message m with
    | some domain => filters.any fun f => f domain
    | none => false
  | _, _ => false

/-- Embeds `Resolver::should_ip_fallback`: some configured IP filter accepts the
address. -/
def should_ip_fallback (r : Resolver) (ip : IpAddr) : Bool :=
  match r.fallback_ip_filters with
  | some fs => fs.any fun f => f ip
  | none => false

/-- Embeds `Resolver::ip_exchange`, together with the call log.  Policy first
(skipping fallback entirely), then the fallback-only short circuit, then
main alone when no fallback pool exists, else the main/fallback race:
main's result is kept when its answer has a first address that no IP
filter accepts, otherwise fallback's result is returned.  The
`self.fallback.as_ref().unwrap()` under `should_only_query_fallback` is a
panic when the pool is absent (it is provably unreachable). -/
def ip_exchange (r : Resolver) (batch : Batch) (m : Message) :
    RunResult Message × List PoolCall :=
  match r.match_policy m with
  | some matched => (liftB (batch matched m), [.policyP matched])
  | none =>
    if r.should_only_query_fallback m then
      match r.fallback with
      | some fb => (liftB (batch fb m), [.fallbackP])
      | none => (.panicked, [])
    else
      match r.fallback with
      | none => (liftB (batch r.main m), [.mainP])
      | some fb =>
        let mainRes := batch r.main m
        let fbRes := batch fb m
        let res :=
          match mainRes with
          | .ok mainResult =>
            match ip_list_of_message mainResult with
            | none => .panicked
            | some ipList =>
              match ipList with
              | ip :: _ =>
                if !r.should_ip_fallback ip then .ok mainResult
                else liftB fbRes
              | [] => liftB fbRes
          | .error _ => liftB fbRes
        (res, [.mainP, .fallbackP])

/-- Embeds `Resolver::exchange_no_cache`, returning the result, the updated cache
and the call log.  The leading `message.query().unwrap()` panics on a
message without questions.  On success the answer is inserted into the
cache unless the question is a TXT query whose name starts with
`_acme-challenge.`.  (The source also computes the answer's minimum TTL at
this point but does not use it.) -/
def exchange_no_cache (r : Resolver) (batch : Batch) (now : Nat)
    (m : Message) : RunResult Message × Option LruCacheM × List PoolCall :=
  match m.queries.head? with
  | none => (.panicked, r.lru_cache, [])
  | some q =>
    let step :=
      if is_ip_request q then r.ip_exchange batch m
      else
        match r.match_policy m with
        | some matched => (liftB (batch matched m), [.policyP matched])
        | none => (liftB (batch r.main m), [.mainP])
    let cache :=
      match step.1, r.lru_cache with
      | .ok msg, some lru =>
        if q.qtype == .TXT && strStartsWith q.name "_acme-challenge." then
          some lru
        else some (lru.insert now (queryKey q) msg)
      | _, some lru => some lru
      | _, none => none
    (step.1, cache, step.2)

/-- Embeds `Resolver::exchange`: the `anyhow!("invalid query")` error when the
message has no question; otherwise a non-expired cached answer is returned
as-is (the cache untouched), else the uncached pipeline runs. -/
def exchange (r : Resolver) (batch : Batch) (now : Nat) (m : Message) :
    RunResult Message × Option LruCacheM × List PoolCall :=
  match m.queries.head? with
  | none => (.err .invalidQuery, r.lru_cache, [])
  | some q =>
    match r.lru_cache with
    | some lru =>
      match lru.peek now (queryKey q) with
      | some cached => (.ok cached, r.lru_cache, [])
      | none => r.exchange_no_cache batch now m
    | none => r.exchange_no_cache batch now m

/-- Runs `n` successive `exchange` calls on the same message, threading the
cache; returns the final cache and the total number of `batch_exchange`
invocations (the length of the accumulated call log). -/
def exchangeIter (r : Resolver) (batch : Batch) (now : Nat) (m : Message) :
    Nat → Option LruCacheM × Nat
  | 0 => (r.lru_cache, 0)
  | n + 1 =>
    let prev := exchangeIter r batch now m n
    let out := exchange { r with lru_cache := prev.1 } batch now m
    (out.2.1, prev.2 + out.2.2.length)

end Resolver

/-- One decimal octet of a dotted-quad IPv4 literal, as accepted by Rust's
`Ipv4Addr::from_str`: 1-3 digits, value below 256, no leading zero. -/
def parseDecOctet (l : List Char) : Option Nat :=
  if l.length = 0 ∨ l.length > 3 then none
  else if !(l.all (·.isDigit)) then none
  else
    match l with
    | '0' :: _ :: _ => none
    | _ =>
      let n := l.foldl (fun a c => a * 10 + (c.toNat - 48)) 0
      if n ≤ 255 then some n else none

/-- Embeds `host.parse::<Ipv4Addr>()`: four dot-separated decimal octets. -/
def parseIpv4 (s : String) : Option Nat :=
  match splitOnChar '.' s.toList [] with
  | [a, b, c, d] => do
    let a' ← parseDecOctet a
    let b' ← parseDecOctet b
    let c' ← parseDecOctet c
    let d' ← parseDecOctet d
    pure (((a' * 256 + b') * 256 + c') * 256 + d')
  | _ => none

/-- One hexadecimal digit. -/
def hexDigitVal (c : Char) : Option Nat :=
  if c.isDigit then some (c.toNat - 48)
  else if 97 ≤ c.toNat ∧ c.toNat ≤ 102 then some (c.toNat - 87)
  else if 65 ≤ c.toNat ∧ c.toNat ≤ 70 then some (c.toNat - 55)
  else none

/-- One 16-bit group of an IPv6 literal: 1-4 hex digits. -/
def parseHexGroup (l : List Char) : Option Nat :=
  if l.length = 0 ∨ l.length > 4 then none
  else l.foldl
    (fun acc c => do
      let a ← acc
      let d ← hexDigitVal c
      pure (a * 16 + d))
    (some 0)

/-- Assemble 16-bit groups, most significant first. -/
def groupsToNat (gs : List Nat) : Nat :=
  gs.foldl (fun a g => a * 65536 + g) 0

/-- Split a character list at the first `::`, if any. -/
def splitDoubleColon : List Char → Option (List Char × List Char)
  | [] => none
  | [_] => none
  | c1 :: c2 :: cs =>
    if c1 = ':' ∧ c2 = ':' then some ([], cs)
    else (splitDoubleColon (c2 :: cs)).map fun p => (c1 :: p.1, p.2)

/-- Embeds `host.parse::<Ipv6Addr>()`: eight colon-separated hex groups, with at
most one `::` standing for one or more zero groups.  (The textual form
with an embedded IPv4 tail is not modelled; no theorem below depends on
it.) -/
def parseIpv6 (s : String) : Option Nat :=
  let cs := s.toList
  match splitDoubleColon cs with
  | none => do
    let gs ← (splitOnChar ':' cs []).mapM parseHexGroup
    if gs.length = 8 then pure (groupsToNat gs) else none
  | some (lft, rgt) =>
    if (splitDoubleColon rgt).isSome then none
    else do
      let ls ← if lft.isEmpty then pure []
        else (splitOnChar ':' lft []).mapM parseHexGroup
      let rs ← if rgt.isEmpty then pure []
        else (splitOnChar ':' rgt []).mapM parseHexGroup
      if ls.length + rs.length ≤ 7 then
        pure (groupsToNat
          (ls ++ List.replicate (8 - ls.length - rs.length) 0 ++ rs))
      else none

namespace Resolver

/-- Embeds `Name::from_str_relaxed(host)?.append_domain(&Name::root())?` as used
by `lookup_ip`: the relaxed parser accepts RFC-violating labels
(underscores), and appending the root label makes the name fully
qualified.  The model renders the resulting FQDN as the host with a
trailing dot; the empty string is the one rejected input exercised
here. -/
def nameFromStrRelaxed (host : String) : Option String :=
  if host.length = 0 then none
  else some (if strEndsWith host "." then host else host ++ ".")

/-- The query message `lookup_ip` builds: one question, RD set. -/
def mkQueryMessage (name : String) (rt : RecordType) : Message :=
  { queries := [{ name := name, qtype := rt, qclass := .IN }]
    answers := []
    nameServers := []
    additionals := []
    recursionDesired := true }

/-- Embeds `Resolver::lookup_ip`: build the question, run `exchange`, turn an
answer without any A/AAAA record into the no-record error.  Returns the
result, the updated cache and the call log. -/
def lookup_ip (r : Resolver) (batch : Batch) (now : Nat) (host : String)
    (rt : RecordType) :
    RunResult (List IpAddr) × Option LruCacheM × List PoolCall :=
  match nameFromStrRelaxed host with
  | none => (.err .invalidDomain, r.lru_cache, [])
  | some name =>
    let out := r.exchange batch now (mkQueryMessage name rt)
    match out.1 with
    | .ok result =>
      match ip_list_of_message result with
      | none => (.panicked, out.2.1, out.2.2)
      | some l =>
        if l.isEmpty then (.err .noRecord, out.2.1, out.2.2)
        else (.ok l, out.2.1, out.2.2)
    | .err e => (.err e, out.2.1, out.2.2)
    | .panicked => (.panicked, out.2.1, out.2.2)

/-- The random pick `result.choose(&mut thread_rng()).unwrap()` of
`resolve_v4`/`resolve_v6`, de-randomized by an explicit choice index: the
element at `choice % length`, a panic on an empty list (the `.unwrap()`;
unreachable because `lookup_ip` only succeeds with a non-empty list),
and a panic when the picked address is of the wrong family (the
`unreachable!("invalid IP family")`). -/
def pickV4 (l : List IpAddr) (choice : Nat) : RunResult Nat :=
  match l.get? (choice % l.length) with
  | some (.v4 a) => .ok a
  | some (.v6 _) => .panicked
  | none => .panicked

def pickV6 (l : List IpAddr) (choice : Nat) : RunResult Nat :=
  match l.get? (choice % l.length) with
  | some (.v6 a) => .ok a
  | some (.v4 _) => .panicked
  | none => .panicked

/-- Embeds `ClashResolver::resolve_v4`.  Order as in the source: the hosts trie
(only when `enhanced`; a non-v4 value hits `unreachable!`), then the
literal-IPv4 parse, then the fake-IP engine (when `enhanced`, enabled and
the host is not skipped), then an upstream A lookup with a uniformly
random pick.  Returns the result, the updated resolver state and the call
log. -/
def resolve_v4 (r : Resolver) (batch : Batch) (now choice : Nat)
    (host : String) (enhanced : Bool) :
    RunResult (Option Nat) × Resolver × List PoolCall :=
  let hostsHit : Option (RunResult (Option Nat)) :=
    if enhanced then
      match r.hosts with
      | some hosts =>
        match hosts.search host with
        | some (.v4 a) => some (.ok (some a))
        | some (.v6 _) => some .panicked
        | none => none
      | none => none
    else none
  match hostsHit with
  | some res => (res, r, [])
  | none =>
    match parseIpv4 host with
    | some ip => (.ok (some ip), r, [])
    | none =>
      let fakeHit : Option (Nat × FakeDns) :=
        if enhanced then
          match r.fake_dns with
          | some fd =>
            if fd.should_skip host then none
            else some (fd.lookup host now)
          | none => none
        else none
      match fakeHit with
      | some (ip, fd') => (.ok (some ip), { r with fake_dns := some fd' }, [])
      | none =>
        let out := r.lookup_ip batch now host .A
        let r' := { r with lru_cache := out.2.1 }
        match out.1 with
        | .ok l =>
          match pickV4 l choice with
          | .ok a => (.ok (some a), r', out.2.2)
          | .err e => (.err e, r', out.2.2)
          | .panicked => (.panicked, r', out.2.2)
        | .err e => (.err e, r', out.2.2)
        | .panicked => (.panicked, r', out.2.2)

/-- Embeds `ClashResolver::resolve_v6`.  The atomic `ipv6` flag is read first and
a disabled flag fails fast with the ipv6-disabled error; then the hosts
trie (when `enhanced`; a non-v6 value hits `unreachable!`), the
literal-IPv6 parse, and an upstream AAAA lookup with a random pick.  There
is no fake-IP step (fake-IP is IPv4-only). -/
def resolve_v6 (r : Resolver) (batch : Batch) (now choice : Nat)
    (host : String) (enhanced : Bool) :
    RunResult (Option Nat) × Resolver × List PoolCall :=
  if !r.ipv6 then (.err .ipv6Disabled, r, [])
  else
    let hostsHit : Option (RunResult (Option Nat)) :=
      if enhanced then
        match r.hosts with
        | some hosts =>
          match hosts.search host with
          | some (.v6 a) => some (.ok (some a))
          | some (.v4 _) => some .panicked
          | none => none
        | none => none
      else none
    match hostsHit with
    | some res => (res, r, [])
    | none =>
      match parseIpv6 host with
      | some ip => (.ok (some ip), r, [])
      | none =>
        let out := r.lookup_ip batch now host .AAAA
        let r' := { r with lru_cache := out.2.1 }
        match out.1 with
        | .ok l =>
          match pickV6 l choice with
          | .ok a => (.ok (some a), r', out.2.2)
          | .err e => (.err e, r', out.2.2)
          | .panicked => (.panicked, r', out.2.2)
        | .err e => (.err e, r', out.2.2)
        | .panicked => (.panicked, r', out.2.2)

/-- One arm of the dual-stack race in `resolve`: the v6 or the v4 future,
with its `Ipv6Addr`/`Ipv4Addr` result widened to `IpAddr`. -/
def resolveArm (r : Resolver) (batch : Batch) (now choice : Nat)
    (host : String) (enhanced useV6 : Bool) :
    RunResult (Option IpAddr) × Resolver × List PoolCall :=
  if useV6 then
    let out := r.resolve_v6 batch now choice host enhanced
    (match out.1 with
      | .ok v => .ok (v.map IpAddr.v6)
      | .err e => .err e
      | .panicked => .panicked, out.2.1, out.2.2)
  else
    let out := r.resolve_v4 batch now choice host enhanced
    (match out.1 with
      | .ok v => .ok (v.map IpAddr.v4)
      | .err e => .err e
      | .panicked => .panicked, out.2.1, out.2.2)

/-- Embeds `ClashResolver::resolve`.  With the flag off, only `resolve_v4` runs.
With the flag on the source races the v6 and v4 futures with `select_ok`
and, when the first success carries no address, awaits the remaining
future with `select_all`; the model linearizes the race in completion
order, given by `v6First` (state effects are threaded in that order).
When the first future fails and the second succeeds with no address, the
source calls `select_all` on an empty vector, which panics. -/
def resolve (r : Resolver) (batch : Batch) (now choice : Nat)
    (v6First : Bool) (host : String) (enhanced : Bool) :
    RunResult (Option IpAddr) × Resolver × List PoolCall :=
  match r.ipv6 with
  | false => r.resolveArm batch now choice host enhanced false
  | true =>
    let fst := r.resolveArm batch now choice host enhanced v6First
    match fst.1 with
    | .ok (some a) => (.ok (some a), fst.2.1, fst.2.2)
    | .ok none =>
      let snd := fst.2.1.resolveArm batch now choice host enhanced (!v6First)
      (snd.1, snd.2.1, fst.2.2 ++ snd.2.2)
    | .err _ =>
      let snd := fst.2.1.resolveArm batch now choice host enhanced (!v6First)
      match snd.1 with
      | .ok (some a) => (.ok (some a), snd.2.1, fst.2.2 ++ snd.2.2)
      | .ok none => (.panicked, snd.2.1, fst.2.2 ++ snd.2.2)
      | .err e => (.err e, snd.2.1, fst.2.2 ++ snd.2.2)
      | .panicked => (.panicked, snd.2.1, fst.2.2 ++ snd.2.2)
    | .panicked => (.panicked, fst.2.1, fst.2.2)

/-- Embeds `ClashResolver::fake_ip_enabled`. -/
def fake_ip_enabled (r : Resolver) : Bool :=
  r.fake_dns.isSome

/-- Embeds `ClashResolver::is_fake_ip` for the Clash resolver: `false` outright
when fake-IP is not enabled, else the engine is consulted (under its
lock). -/
def is_fake_ip (r : Resolver) (ip : IpAddr) : Bool :=
  match r.fake_dns with
  | none => false
  | some fd => fd.is_fake_ip ip

/-- Embeds `ClashResolver::fake_ip_exists`: `false` outright when fake-IP is not
enabled, else the engine's `exist`. -/
def fake_ip_exists (r : Resolver) (ip : IpAddr) : Bool :=
  match r.fake_dns with
  | none => false
  | some fd => fd.exist ip

/-- Embeds `ClashResolver::reverse_lookup`: `none` outright when fake-IP is not
enabled, else the engine's reverse map. -/
def reverse_lookup (r : Resolver) (ip : IpAddr) : Option String :=
  match r.fake_dns with
  | none => none
  | some fd => fd.reverse_lookup ip

end Resolver

/-! ### Concrete fixtures used by witnesses and counterexamples -/

/-- A question of the given name, type `A`, class `IN`. -/
def qA (name : String) : Query :=
  { name := name, qtype := .A, qclass := .IN }

/-- A one-question message. -/
def mkMsg (q : Query) : Message :=
  { queries := [q], answers := [], nameServers := [], additionals := []
    recursionDesired := true }

/-- An answer message: one `A` record with address `a`, bound to query
`q`. -/
def mkAnsA (q : Query) (a : Nat) : Message :=
  { queries := [q], answers := [{ rtype := .A, data := some (.a a), ttl := 60 }]
    nameServers := [], additionals := [], recursionDesired := true }

/-- A batch oracle on which every pool fails with a transport error. -/
def batchNone : Batch := fun _ _ => .error 0

/-- A minimal resolver: one main client, nothing else configured. -/
def rPlain : Resolver :=
  { ipv6 := false, hosts := none, main := [0], fallback := none
    fallback_domain_filters := none, fallback_ip_filters := none
    lru_cache := none, policy := none, fake_dns := none }

/-! ### C8 -/

/-- C8: whenever the `ipv6` flag is false, `resolve_v6` returns the
`Ipv6Disabled` error immediately for every host and every value of
`enhanced`, leaving the resolver state untouched and issuing no upstream
call. -/
theorem c8_resolve_v6_disabled (r : Resolver) (batch : Batch)
    (now choice : Nat) (host : String) (enhanced : Bool)
    (h : r.ipv6 = false) :
    r.resolve_v6 batch now choice host enhanced = (.err .ipv6Disabled, r, []) := by
  simp [Resolver.resolve_v6, h]

theorem c8_resolve_v6_disabled_witness :
    rPlain.ipv6 = false ∧
      rPlain.resolve_v6 batchNone 0 0 "example.com" true =
        (.err .ipv6Disabled, rPlain, []) :=
  ⟨rfl, c8_resolve_v6_disabled rPlain batchNone 0 0 "example.com" true rfl⟩

/-! ### C10 -/

/-- C10: when fake-IP mode is not enabled, `is_fake_ip` and
`fake_ip_exists` return `false` and `reverse_lookup` returns `none`, for
every IP address. -/
theorem c10_fake_disabled_neutral (r : Resolver) (h : r.fake_dns = none)
    (ip : IpAddr) :
    r.is_fake_ip ip = false ∧ r.fake_ip_exists ip = false ∧
      r.reverse_lookup ip = none := by
  simp [Resolver.is_fake_ip, Resolver.fake_ip_exists, Resolver.reverse_lookup, h]

theorem c10_fake_disabled_neutral_witness :
    rPlain.fake_dns = none ∧
      (rPlain.is_fake_ip (.v4 3232235777) = false ∧
        rPlain.fake_ip_exists (.v4 3232235777) = false ∧
        rPlain.reverse_lookup (.v4 3232235777) = none) :=
  ⟨rfl, c10_fake_disabled_neutral rPlain rfl (.v4 3232235777)⟩

/-! ### C2 -/

theorem liftB_ne_invalid (x : Except Nat Message) :
    liftB x ≠ .err .invalidQuery := by
  cases x <;> simp [liftB]

theorem ip_exchange_fst_ne_invalid (r : Resolver) (batch : Batch)
    (m : Message) : (r.ip_exchange batch m).1 ≠ .err .invalidQuery := by
  cases hmp : r.match_policy m with
  | some cs =>
    simp only [Resolver.ip_exchange, hmp]
    exact liftB_ne_invalid _
  | none =>
    cases hso : r.should_only_query_fallback m with
    | true =>
      cases hfb : r.fallback with
      | none => simp [Resolver.ip_exchange, hmp, hfb, hso]
      | some fb =>
        simp only [Resolver.ip_exchange, hmp, hfb, hso, if_true]
        exact liftB_ne_invalid _
    | false =>
      cases hfb : r.fallback with
      | none =>
        simp only [Resolver.ip_exchange, hmp, hfb, hso, Bool.false_eq_true,
          if_false]
        exact liftB_ne_invalid _
      | some fb =>
        cases hb : batch r.main m with
        | error e =>
          simp only [Resolver.ip_exchange, hmp, hfb, hso, hb,
            Bool.false_eq_true, if_false]
          exact liftB_ne_invalid _
        | ok mm =>
          cases hl : Resolver.ip_list_of_message mm with
          | none =>
            simp [Resolver.ip_exchange, hmp, hfb, hso, hb, hl]
          | some l =>
            cases l with
            | nil =>
              simp only [Resolver.ip_exchange, hmp, hfb, hso, hb, hl,
                Bool.false_eq_true, if_false]
              exact liftB_ne_invalid _
            | cons ip tl =>
              cases hf : r.should_ip_fallback ip with
              | false =>
                simp [Resolver.ip_exchange, hmp, hfb, hso, hb, hl, hf]
              | true =>
                simp only [Resolver.ip_exchange, hmp, hfb, hso, hb, hl, hf,
                  Bool.false_eq_true, if_false, Bool.not_true]
                exact liftB_ne_invalid _

theorem exchange_no_cache_fst_ne_invalid (r : Resolver) (batch : Batch)
    (now : Nat) (m : Message) :
    (r.exchange_no_cache batch now m).1 ≠ .err .invalidQuery := by
  unfold Resolver.exchange_no_cache
  split
  · simp
  · dsimp only
    split
    · exact ip_exchange_fst_ne_invalid r batch m
    · split
      · exact liftB_ne_invalid _
      · exact liftB_ne_invalid _

/-- C2 (amended): `exchange` fails with `InvalidQuery` exactly when the
message has zero questions; a message with one or more questions (two or
more included) proceeds to the cache lookup and the upstream pipeline,
which never produce that error. -/
theorem c2_invalid_query_iff_no_question (r : Resolver) (batch : Batch)
    (now : Nat) (m : Message) :
    (r.exchange batch now m).1 = .err .invalidQuery ↔ m.queries = [] := by
  constructor
  · intro h
    cases hq : m.queries with
    | nil => rfl
    | cons q t =>
      exfalso
      have hh : m.queries.head? = some q := by rw [hq]; rfl
      have hne : (r.exchange batch now m).1 ≠ .err .invalidQuery := by
        unfold Resolver.exchange
        rw [hh]
        dsimp only
        split
        · split
          · simp
          · exact exchange_no_cache_fst_ne_invalid r batch now m
        · exact exchange_no_cache_fst_ne_invalid r batch now m
      exact hne h
  · intro h
    have hh : m.queries.head? = none := by rw [h]; rfl
    unfold Resolver.exchange
    rw [hh]

/-- The original C2 fails: a message with two questions does not yield
`InvalidQuery`; the pipeline runs on the first question and here returns
the upstream answer. -/
def mTwoQ : Message :=
  { queries := [qA "a.", qA "b."], answers := [], nameServers := []
    additionals := [], recursionDesired := true }

def batchOkA : Batch := fun _ _ => .ok (mkAnsA (qA "a.") 16909060)

theorem c2_counterexample :
    mTwoQ.queries.length = 2 ∧
      (rPlain.exchange batchOkA 0 mTwoQ).1 = .ok (mkAnsA (qA "a.") 16909060) ∧
      (rPlain.exchange batchOkA 0 mTwoQ).1 ≠ .err .invalidQuery := by
  refine ⟨rfl, by decide, by decide⟩

/-! ### C1 -/

/-- A policy trie routing `dns.google` to client 7. -/
def polTrie : StringTrie (List ClientId) := ⟨[("dns.google", [7])]⟩

/-- A resolver with a nameserver policy but no fallback pool and no
fallback domain filters. -/
def rPolicyNoFb : Resolver :=
  { rPlain with main := [1, 2], policy := some polTrie }

def mDnsGoogle : Message := mkMsg (qA "dns.google.")

def batchOkG : Batch := fun _ _ => .ok (mkAnsA (qA "dns.google.") 134743044)

/-- The original C1 fails: with a policy entry matching the question but no
fallback pool configured, `match_policy` returns `none` (it requires the
fallback pool and the fallback domain filters to be present), so the query
is batched over the main pool, not the policy entry's clients. -/
theorem c1_counterexample :
    rPolicyNoFb.policy = some polTrie ∧
      polTrie.search "dns.google" = some [7] ∧
      (rPolicyNoFb.ip_exchange batchOkG mDnsGoogle).2 = [.mainP] ∧
      (rPolicyNoFb.exchange_no_cache batchOkG 0 mDnsGoogle).2.2 = [.mainP] := by
  refine ⟨rfl, by decide, by decide, by decide⟩

/-- C1 (amended): when the fallback pool and the fallback domain filters
are configured alongside the policy trie, a question whose name matches a
policy entry is batched only over that entry's client list — never over
main or fallback — in both `ip_exchange` and `exchange_no_cache`.  (When
either the fallback pool or the fallback domain filters are absent, the
policy trie is ignored, as the counterexample shows.) -/
theorem c1_policy_precedence (r : Resolver) (batch : Batch) (now : Nat)
    (m : Message) (q : Query) (p : StringTrie (List ClientId))
    (fb : List ClientId) (fd : List (String → Bool)) (cs : List ClientId)
    (hq : m.queries.head? = some q)
    (hfb : r.fallback = some fb)
    (hfd : r.fallback_domain_filters = some fd)
    (hp : r.policy = some p)
    (hs : p.search (Resolver.trimDots q.name) = some cs) :
    r.ip_exchange batch m = (liftB (batch cs m), [.policyP cs]) ∧
      (r.exchange_no_cache batch now m).1 = liftB (batch cs m) ∧
      (r.exchange_no_cache batch now m).2.2 = [.policyP cs] := by
  have hmp : r.match_policy m = some cs := by
    simp [Resolver.match_policy, hfb, hfd, hp, Resolver.domain_name_of_message,
      hq, hs]
  have hip : r.ip_exchange batch m = (liftB (batch cs m), [.policyP cs]) := by
    simp [Resolver.ip_exchange, hmp]
  have hstep :
      (r.exchange_no_cache batch now m).1 = liftB (batch cs m) ∧
        (r.exchange_no_cache batch now m).2.2 = [.policyP cs] := by
    unfold Resolver.exchange_no_cache
    rw [hq]
    cases hir : Resolver.is_ip_request q with
    | true => simp [hir, hip]
    | false => simp [hir, hmp]
  exact ⟨hip, hstep.1, hstep.2⟩

/-- A fully configured resolver: main, fallback, fallback domain filters
and the policy trie are all present. -/
def rFull : Resolver :=
  { ipv6 := false, hosts := none, main := [1, 2], fallback := some [3]
    fallback_domain_filters := some [fun d => d.endsWith ".cn"]
    fallback_ip_filters := none, lru_cache := none, policy := some polTrie
    fake_dns := none }

theorem c1_policy_precedence_witness :
    mDnsGoogle.queries.head? = some (qA "dns.google.") ∧
      rFull.ip_exchange batchOkG mDnsGoogle =
        (liftB (batchOkG [7] mDnsGoogle), [.policyP [7]]) ∧
      (rFull.exchange_no_cache batchOkG 0 mDnsGoogle).1 =
        liftB (batchOkG [7] mDnsGoogle) ∧
      (rFull.exchange_no_cache batchOkG 0 mDnsGoogle).2.2 = [.policyP [7]] :=
  ⟨rfl,
    c1_policy_precedence rFull batchOkG 0 mDnsGoogle (qA "dns.google.")
      polTrie [3] [fun d => d.endsWith ".cn"] [7] rfl rfl rfl rfl (by decide)⟩

/-! ### C3 -/

/-- C3: in `ip_exchange`, when neither the policy trie nor the fallback
domain filters decide the query and a fallback pool exists: if main
succeeds and its answer's first A/AAAA address passes every IP filter, the
main result is returned; if both succeed and some IP filter accepts that
first address, the fallback result is returned; if main fails, the
fallback result is returned.  In every case exactly the main and fallback
pools are queried. -/
theorem c3_ip_filter_rewrite (r : Resolver) (batch : Batch) (m : Message)
    (fb : List ClientId)
    (h1 : r.match_policy m = none)
    (h2 : r.should_only_query_fallback m = false)
    (h3 : r.fallback = some fb) :
    (∀ mm fm ip rest,
        batch r.main m = .ok mm →
        batch fb m = .ok fm →
        Resolver.ip_list_of_message mm = some (ip :: rest) →
        ((r.should_ip_fallback ip = false →
            r.ip_exchange batch m = (.ok mm, [.mainP, .fallbackP])) ∧
          (r.should_ip_fallback ip = true →
            r.ip_exchange batch m = (.ok fm, [.mainP, .fallbackP])))) ∧
      (∀ e, batch r.main m = .error e →
        r.ip_exchange batch m = (liftB (batch fb m), [.mainP, .fallbackP])) := by
  constructor
  · intro mm fm ip rest hm hf hl
    constructor
    · intro hip
      simp [Resolver.ip_exchange, h1, h2, h3, hm, hf, hl, hip, liftB]
    · intro hip
      simp [Resolver.ip_exchange, h1, h2, h3, hm, hf, hl, hip, liftB]
  · intro e hm
    simp [Resolver.ip_exchange, h1, h2, h3, hm]

/-- Fixture for the C3 witness: one IP filter accepting exactly
`1.2.3.4`; main answers `1.2.3.4`, fallback answers `93.184.216.34`. -/
def r3 : Resolver :=
  { rPlain with
    main := [1]
    fallback := some [2]
    fallback_ip_filters := some [fun ip => ip == IpAddr.v4 16909060] }

def m3 : Message := mkMsg (qA "example.com.")

def mainMsg3 : Message := mkAnsA (qA "example.com.") 16909060

def fbMsg3 : Message := mkAnsA (qA "example.com.") 1572395042

def batch3 : Batch := fun cs _ => if cs == [1] then .ok mainMsg3 else .ok fbMsg3

theorem c3_ip_filter_rewrite_witness :
    r3.match_policy m3 = none ∧
      r3.should_only_query_fallback m3 = false ∧
      r3.fallback = some [2] ∧
      batch3 r3.main m3 = .ok mainMsg3 ∧
      batch3 [2] m3 = .ok fbMsg3 ∧
      Resolver.ip_list_of_message mainMsg3 = some [.v4 16909060] ∧
      r3.should_ip_fallback (.v4 16909060) = true ∧
      r3.ip_exchange batch3 m3 = (.ok fbMsg3, [.mainP, .fallbackP]) :=
  ⟨rfl, rfl, rfl, rfl, rfl, by decide, by decide,
    ((c3_ip_filter_rewrite r3 batch3 m3 [2] rfl rfl rfl).1 mainMsg3 fbMsg3
        (.v4 16909060) [] rfl rfl (by decide)).2 (by decide)⟩

/-! ### C6 -/

theorem exchange_acme_step (r : Resolver) (batch : Batch) (now : Nat)
    (m : Message) (q : Query) (lru : LruCacheM)
    (hq : m.queries.head? = some q)
    (ht : q.qtype = .TXT)
    (hn : strStartsWith q.name "_acme-challenge." = true)
    (hl : r.lru_cache = some lru)
    (hp : lru.peek now (Resolver.queryKey q) = none) :
    (r.exchange batch now m).2.1 = some lru ∧
      (r.exchange batch now m).2.2.length = 1 := by
  have hir : Resolver.is_ip_request q = false := by
    simp [Resolver.is_ip_request, ht]
  cases hmp : r.match_policy m with
  | some cs =>
    cases hb : batch cs m with
    | ok msg =>
      simp [Resolver.exchange, Resolver.exchange_no_cache, hq, hl, hp, hir,
        hmp, hb, ht, hn, liftB]
    | error e =>
      simp [Resolver.exchange, Resolver.exchange_no_cache, hq, hl, hp, hir,
        hmp, hb, liftB]
  | none =>
    cases hb : batch r.main m with
    | ok msg =>
      simp [Resolver.exchange, Resolver.exchange_no_cache, hq, hl, hp, hir,
        hmp, hb, ht, hn, liftB]
    | error e =>
      simp [Resolver.exchange, Resolver.exchange_no_cache, hq, hl, hp, hir,
        hmp, hb, liftB]

/-- C6: a TXT question whose name begins with `_acme-challenge.` is never
inserted into the LRU cache — `n` successive `exchange` calls leave the
cache untouched and issue `n` upstream batch calls — while every other
successful `exchange_no_cache` result is inserted into the cache. -/
theorem c6_acme_never_cached :
    (∀ (r : Resolver) (batch : Batch) (now : Nat) (m : Message) (q : Query)
        (lru : LruCacheM) (n : Nat),
      m.queries.head? = some q → q.qtype = .TXT →
      strStartsWith q.name "_acme-challenge." = true →
      r.lru_cache = some lru →
      lru.peek now (Resolver.queryKey q) = none →
      r.exchangeIter batch now m n = (some lru, n)) ∧
    (∀ (r : Resolver) (batch : Batch) (now : Nat) (m : Message) (q : Query)
        (lru : LruCacheM) (msg : Message),
      m.queries.head? = some q →
      (q.qtype == RecordType.TXT &&
        strStartsWith q.name "_acme-challenge.") = false →
      r.lru_cache = some lru →
      (r.exchange_no_cache batch now m).1 = .ok msg →
      (r.exchange_no_cache batch now m).2.1 =
        some (lru.insert now (Resolver.queryKey q) msg)) := by
  constructor
  · intro r batch now m q lru n hq ht hn hl hp
    induction n with
    | zero => simp [Resolver.exchangeIter, hl]
    | succ k ih =>
      have hstep :
          (Resolver.exchange { r with lru_cache := some lru } batch now m).2.1
              = some lru ∧
            (Resolver.exchange { r with lru_cache := some lru }
                batch now m).2.2.length = 1 :=
        exchange_acme_step { r with lru_cache := some lru } batch now m q lru
          hq ht hn rfl hp
      simp [Resolver.exchangeIter, ih, hstep.1, hstep.2]
  · intro r batch now m q lru msg hq hac hl hok
    unfold Resolver.exchange_no_cache at hok ⊢
    rw [hq] at hok ⊢
    dsimp only at hok ⊢
    rw [hok, hl]
    simp [hac]

/-- The empty 4096-capacity, 60 s cache built by `Resolver::new`. -/
def emptyLru : LruCacheM := { entries := [], capacity := 4096, ttl := 60 }

/-- A resolver with the standard cache configured. -/
def rCache : Resolver := { rPlain with lru_cache := some emptyLru }

def qAcme : Query :=
  { name := "_acme-challenge.example.com.", qtype := .TXT, qclass := .IN }

def mAcme : Message := mkMsg qAcme

def ansAcme : Message :=
  { queries := [qAcme]
    answers := [{ rtype := .TXT, data := some (.txt "token"), ttl := 60 }]
    nameServers := [], additionals := [], recursionDesired := true }

def batchAcme : Batch := fun _ _ => .ok ansAcme

theorem c6_acme_never_cached_witness :
    (mAcme.queries.head? = some qAcme ∧
      rCache.exchangeIter batchAcme 0 mAcme 3 = (some emptyLru, 3)) ∧
    ((mkMsg (qA "example.com.")).queries.head? = some (qA "example.com.") ∧
      (rCache.exchange_no_cache batchOkA 0 (mkMsg (qA "example.com."))).2.1 =
        some (emptyLru.insert 0 (Resolver.queryKey (qA "example.com."))
          (mkAnsA (qA "a.") 16909060))) :=
  ⟨⟨rfl,
      c6_acme_never_cached.1 rCache batchAcme 0 mAcme qAcme emptyLru 3 rfl rfl
        (by decide) rfl (by decide)⟩,
    ⟨rfl,
      c6_acme_never_cached.2 rCache batchOkA 0 (mkMsg (qA "example.com."))
        (qA "example.com.") emptyLru (mkAnsA (qA "a.") 16909060) rfl
        (by decide) rfl (by decide)⟩⟩

/-! ### C7 -/

/-- The hosts-trie lookup `resolve_v4`/`resolve_v6` perform when
`enhanced` is set. -/
def Resolver.hostsLookup (r : Resolver) (host : String) : Option IpAddr :=
  match r.hosts with
  | some t => t.search host
  | none => none

/-- C7 (amended): a host string that parses as a literal IP is returned
directly — before fake-IP, the cache and any upstream — by `resolve_v4`
(v4 literals), `resolve_v6` (v6 literals, flag on) and `resolve` (flag
off), provided the hosts trie does not capture the query first: in the
source the hosts lookup runs before the literal parse whenever `enhanced`
is set, so the literal passthrough holds unconditionally only for
`enhanced = false`, and for `enhanced = true` under a hosts-trie miss. -/
theorem c7_literal_passthrough (r : Resolver) (batch : Batch)
    (now choice : Nat) (v6First : Bool) (host : String) (enhanced : Bool) :
    (∀ a, parseIpv4 host = some a →
      (enhanced = true → r.hostsLookup host = none) →
      r.resolve_v4 batch now choice host enhanced = (.ok (some a), r, [])) ∧
    (∀ a, parseIpv6 host = some a → r.ipv6 = true →
      (enhanced = true → r.hostsLookup host = none) →
      r.resolve_v6 batch now choice host enhanced = (.ok (some a), r, [])) ∧
    (∀ a, parseIpv4 host = some a → r.ipv6 = false →
      (enhanced = true → r.hostsLookup host = none) →
      r.resolve batch now choice v6First host enhanced =
        (.ok (some (IpAddr.v4 a)), r, [])) := by
  have hmiss : ∀ (he : enhanced = true → r.hostsLookup host = none),
      (if enhanced then
        match r.hosts with
        | some hosts =>
          match hosts.search host with
          | some (.v4 a) => some (RunResult.ok (some a))
          | some (.v6 _) => some RunResult.panicked
          | none => none
        | none => none
      else none) = (none : Option (RunResult (Option Nat))) := by
    intro he
    cases hE : enhanced with
    | false => simp
    | true =>
      have h0 := he hE
      unfold Resolver.hostsLookup at h0
      cases hh : r.hosts with
      | none => simp [hh]
      | some t =>
        rw [hh] at h0
        simp only [] at h0
        simp [hh, h0]
  have hmiss6 : ∀ (he : enhanced = true → r.hostsLookup host = none),
      (if enhanced then
        match r.hosts with
        | some hosts =>
          match hosts.search host with
          | some (.v6 a) => some (RunResult.ok (some a))
          | some (.v4 _) => some RunResult.panicked
          | none => none
        | none => none
      else none) = (none : Option (RunResult (Option Nat))) := by
    intro he
    cases hE : enhanced with
    | false => simp
    | true =>
      have h0 := he hE
      unfold Resolver.hostsLookup at h0
      cases hh : r.hosts with
      | none => simp [hh]
      | some t =>
        rw [hh] at h0
        simp only [] at h0
        simp [hh, h0]
  refine ⟨?_, ?_, ?_⟩
  · intro a hp he
    unfold Resolver.resolve_v4
    rw [hmiss he]
    simp [hp]
  · intro a hp h6 he
    unfold Resolver.resolve_v6
    rw [h6]
    simp only [Bool.not_true, Bool.false_eq_true, if_false]
    rw [hmiss6 he]
    simp [hp]
  · intro a hp h6 he
    unfold Resolver.resolve
    rw [h6]
    unfold Resolver.resolveArm
    simp only [if_false]
    unfold Resolver.resolve_v4
    rw [hmiss he]
    simp [hp]

/-- A resolver with the v6 flag on and nothing else configured. -/
def rV6 : Resolver := { rPlain with ipv6 := true }

theorem c7_literal_passthrough_witness :
    (parseIpv4 "1.2.3.4" = some 16909060 ∧
      rPlain.resolve_v4 batchNone 0 0 "1.2.3.4" true =
        (.ok (some 16909060), rPlain, [])) ∧
    (parseIpv6 "::1" = some 1 ∧
      rV6.resolve_v6 batchNone 0 0 "::1" true = (.ok (some 1), rV6, [])) ∧
    (rPlain.ipv6 = false ∧
      rPlain.resolve batchNone 0 0 false "1.2.3.4" false =
        (.ok (some (IpAddr.v4 16909060)), rPlain, [])) :=
  ⟨⟨by decide,
      (c7_literal_passthrough rPlain batchNone 0 0 false "1.2.3.4" true).1
        16909060 (by decide) (fun _ => rfl)⟩,
    ⟨by decide,
      (c7_literal_passthrough rV6 batchNone 0 0 false "::1" true).2.1
        1 (by decide) rfl (fun _ => rfl)⟩,
    ⟨rfl,
      (c7_literal_passthrough rPlain batchNone 0 0 false "1.2.3.4" false).2.2
        16909060 (by decide) rfl (fun h => by cases h)⟩⟩

/-- A hosts trie capturing the literal string `1.2.3.4` and mapping it to
`9.9.9.9`. -/
def hostsTrie : StringTrie IpAddr := ⟨[("1.2.3.4", .v4 151587081)]⟩

def rHosts : Resolver := { rPlain with hosts := some hostsTrie }

/-- The original C7 fails: with `enhanced = true` the hosts trie is
consulted before the literal parse, so a hosts entry whose pattern equals
the literal string wins and the literal address is not returned. -/
theorem c7_counterexample :
    parseIpv4 "1.2.3.4" = some 16909060 ∧
      (rHosts.resolve_v4 batchNone 0 0 "1.2.3.4" true).1 =
        .ok (some 151587081) ∧
      (rHosts.resolve_v4 batchNone 0 0 "1.2.3.4" true).1 ≠
        .ok (some 16909060) := by
  refine ⟨by decide, by decide, by decide⟩

/-! ### C9 -/

/-- A reply whose answer section holds an `A`-typed record with empty
RDATA (RDLENGTH 0 parses to no data in hickory). -/
def msgEmptyRdata : Message :=
  { queries := [qA "example.com."]
    answers := [{ rtype := .A, data := none, ttl := 60 }]
    nameServers := [], additionals := [], recursionDesired := true }

/-- A reply to an `A` question whose answer section holds an `AAAA`
record. -/
def msgV6Answer : Message :=
  { queries := [qA "dual.example."]
    answers := [{ rtype := .AAAA, data := some (.aaaa 1), ttl := 60 }]
    nameServers := [], additionals := [], recursionDesired := true }

def batchV6 : Batch := fun _ _ => .ok msgV6Answer

/-- C9 fails on the code: the `unreachable!` branches are reachable from
wire input.  A record of type `A` with empty RDATA makes
`ip_list_of_message` panic, and a reply to an `A` query carrying an `AAAA`
record makes the family match in `resolve_v4` panic when the random pick
selects that address. -/
theorem c9_unreachable_reached :
    Resolver.ip_list_of_message msgEmptyRdata = none ∧
      (rPlain.resolve_v4 batchV6 0 0 "dual.example" false).1 = .panicked := by
  refine ⟨by decide, by decide⟩

/-! ### C5 -/

/-- C5 (amended): a cache hit in `exchange` returns the cached message but
leaves the cache — and hence the recency order — exactly as it was (the
read path uses `peek` through a shared read-lock guard), and an expired
entry is invisible to `peek`. -/
theorem c5_cache_read (r : Resolver) (batch : Batch) (now : Nat)
    (m : Message) (q : Query) (lru : LruCacheM) (msg : Message)
    (hq : m.queries.head? = some q)
    (hl : r.lru_cache = some lru)
    (hp : lru.peek now (Resolver.queryKey q) = some msg) :
    r.exchange batch now m = (.ok msg, some lru, []) ∧
      (∀ (c : LruCacheM) (t : Nat) (k : String),
        (∀ e ∈ c.entries, e.1 = k → c.expired t e.2.2 = true) →
        c.peek t k = none) := by
  constructor
  · unfold Resolver.exchange
    rw [hq]
    dsimp only
    rw [hl]
    dsimp only
    rw [hp]
  · intro c t k hall
    unfold LruCacheM.peek
    cases hf : c.entries.find? (fun e => e.1 == k) with
    | none => rfl
    | some e =>
      have hmem := List.mem_of_find?_eq_some hf
      have hpred := List.find?_some hf
      have hk : e.1 = k := by simpa using hpred
      have hexp := hall e hmem hk
      simp [hexp]

/-- A one-entry cache fixture for the C5 witness. -/
def oneLru : LruCacheM :=
  { entries := [(Resolver.queryKey (qA "w."), mkAnsA (qA "w.") 9, 0)]
    capacity := 4096, ttl := 60 }

def rOne : Resolver := { rPlain with lru_cache := some oneLru }

theorem c5_cache_read_witness :
    (mkMsg (qA "w.")).queries.head? = some (qA "w.") ∧
      rOne.lru_cache = some oneLru ∧
      oneLru.peek 0 (Resolver.queryKey (qA "w.")) = some (mkAnsA (qA "w.") 9) ∧
      rOne.exchange batchNone 0 (mkMsg (qA "w.")) =
        (.ok (mkAnsA (qA "w.") 9), some oneLru, []) ∧
      oneLru.peek 61 (Resolver.queryKey (qA "w.")) = none :=
  have h := c5_cache_read rOne batchNone 0 (mkMsg (qA "w.")) (qA "w.") oneLru
    (mkAnsA (qA "w.") 9) rfl rfl (by decide)
  ⟨rfl, rfl, by decide, h.1, h.2 oneLru 61 (Resolver.queryKey (qA "w."))
    (by
      intro e he hk
      simp [oneLru] at he
      rw [he]
      decide)⟩

/-- Shared helper: a cache hit in `exchange` returns the cached value with
the cache untouched. -/
theorem exchange_hit (r : Resolver) (batch : Batch) (now : Nat) (m : Message)
    (q : Query) (lru : LruCacheM) (msg : Message)
    (hq : m.queries.head? = some q) (hl : r.lru_cache = some lru)
    (hp : lru.peek now (Resolver.queryKey q) = some msg) :
    r.exchange batch now m = (.ok msg, some lru, []) := by
  unfold Resolver.exchange
  rw [hq]
  dsimp only
  rw [hl]
  dsimp only
  rw [hp]

/-- Shared helper: a cache miss on an `IN A` question with no policy
match, no fallback-only short circuit and no fallback pool batches over
main, and a successful non-acme answer is inserted into the cache. -/
theorem exchange_miss_insert (r : Resolver) (batch : Batch) (now : Nat)
    (m : Message) (q : Query) (lru : LruCacheM) (msg : Message)
    (hq : m.queries.head? = some q) (hl : r.lru_cache = some lru)
    (hp : lru.peek now (Resolver.queryKey q) = none)
    (hip : Resolver.is_ip_request q = true)
    (hmp : r.match_policy m = none)
    (hso : r.should_only_query_fallback m = false)
    (hfb : r.fallback = none)
    (hb : batch r.main m = .ok msg)
    (hnc : (q.qtype == RecordType.TXT &&
      strStartsWith q.name "_acme-challenge.") = false) :
    r.exchange batch now m =
      (.ok msg, some (lru.insert now (Resolver.queryKey q) msg), [.mainP]) := by
  have hipx : r.ip_exchange batch m = (.ok msg, [.mainP]) := by
    simp [Resolver.ip_exchange, hmp, hso, hfb, hb, liftB]
  unfold Resolver.exchange
  rw [hq]
  dsimp only
  rw [hl]
  dsimp only
  rw [hp]
  unfold Resolver.exchange_no_cache
  rw [hq]
  dsimp only
  rw [hip]
  simp only [if_true, hipx, hl, hnc]
  simp [hnc]

/-- Padding keys for the full-cache counterexample: `#` followed by `i`
copies of `a`, so they are pairwise distinct and distinct from every query
key (which never starts with `#`). -/
def padKey (i : Nat) : String := String.mk ('#' :: List.replicate i 'a')

theorem padKey_ne {s : String} (i : Nat) (hs : s.data.head? ≠ some '#') :
    padKey i ≠ s := by
  intro h
  exact hs (by rw [← h]; rfl)

def msgX : Message := mkMsg (qA "x.")

def qTgt : Query := qA "t."

def tgtKey : String := Resolver.queryKey qTgt

def padEntries : List (String × Message × Nat) :=
  (List.range 4095).map fun i => (padKey i, msgX, 0)

/-- A full cache of 4096 live entries; the entry for `qTgt` sits at the
least-recently-used end. -/
def bigCache : LruCacheM :=
  { entries := padEntries ++ [(tgtKey, msgX, 0)], capacity := 4096, ttl := 60 }

def rBig : Resolver := { rPlain with lru_cache := some bigCache }

def qFresh : Query := qA "fresh."

def batchFresh : Batch := fun _ _ => .ok (mkAnsA qFresh 5)

theorem padEntries_find_none (k : String) (hk : k.data.head? ≠ some '#') :
    padEntries.find? (fun e => e.1 == k) = none := by
  apply List.find?_eq_none.mpr
  intro e he
  simp only [padEntries, List.mem_map, List.mem_range] at he
  obtain ⟨i, _, rfl⟩ := he
  simp [beq_eq_false_iff_ne.mpr (padKey_ne i hk)]

theorem bigCache_peek_tgt : bigCache.peek 0 tgtKey = some msgX := by
  unfold LruCacheM.peek
  rw [show bigCache.entries = padEntries ++ [(tgtKey, msgX, 0)] from rfl,
    List.find?_append, padEntries_find_none tgtKey (by decide)]
  simp [List.find?, LruCacheM.expired, bigCache]

theorem bigCache_peek_fresh :
    bigCache.peek 0 (Resolver.queryKey qFresh) = none := by
  unfold LruCacheM.peek
  rw [show bigCache.entries = padEntries ++ [(tgtKey, msgX, 0)] from rfl,
    List.find?_append, padEntries_find_none _ (by decide)]
  simp [List.find?, show (tgtKey == Resolver.queryKey qFresh) = false from
    by decide]

theorem newCache_peek_tgt :
    (bigCache.insert 0 (Resolver.queryKey qFresh)
      (mkAnsA qFresh 5)).peek 0 tgtKey = none := by
  have hfilter :
      bigCache.entries.filter (fun e => !(e.1 == Resolver.queryKey qFresh)) =
        bigCache.entries := by
    apply List.filter_eq_self.mpr
    intro e he
    rw [show bigCache.entries = padEntries ++ [(tgtKey, msgX, 0)] from rfl]
      at he
    rcases List.mem_append.mp he with h | h
    · simp only [padEntries, List.mem_map, List.mem_range] at h
      obtain ⟨i, _, rfl⟩ := h
      simp [beq_eq_false_iff_ne.mpr
        (padKey_ne (s := Resolver.queryKey qFresh) i (by decide))]
    · simp only [List.mem_singleton] at h
      rw [h]
      decide
  have hlen : padEntries.length = 4095 := by
    simp [padEntries]
  have htake : bigCache.entries.take 4095 = padEntries := by
    rw [show bigCache.entries = padEntries ++ [(tgtKey, msgX, 0)] from rfl,
      ← hlen]
    exact List.take_left ..
  unfold LruCacheM.insert
  rw [hfilter]
  rw [show bigCache.capacity - 1 = 4095 from rfl]
  unfold LruCacheM.peek
  dsimp only
  rw [htake]
  rw [List.find?]
  rw [show ((Resolver.queryKey qFresh, mkAnsA qFresh 5, (0 : Nat)).1 == tgtKey)
    = false from by decide]
  rw [padEntries_find_none tgtKey (by decide)]

/-- The original C5 fails: reading an entry through `exchange` does not
update its recency, so an entry just read can be the first one evicted.
Here the hit on `qTgt` leaves the 4096-entry cache unchanged, and the very
next insert (a fresh question at capacity 4096) evicts exactly the entry
that was just read. -/
theorem c5_counterexample :
    (rBig.exchange batchFresh 0 (mkMsg qTgt)).1 = .ok msgX ∧
      (rBig.exchange batchFresh 0 (mkMsg qTgt)).2.1 = some bigCache ∧
      ((({ rBig with
            lru_cache := (rBig.exchange batchFresh 0 (mkMsg qTgt)).2.1 }
          : Resolver).exchange batchFresh 0 (mkMsg qFresh)).2.1.map
        fun c => c.peek 0 tgtKey) = some none := by
  have h1 := exchange_hit rBig batchFresh 0 (mkMsg qTgt) qTgt bigCache msgX
    rfl rfl bigCache_peek_tgt
  have hR : ({ rBig with lru_cache := some bigCache } : Resolver) = rBig := rfl
  have h2 := exchange_miss_insert rBig batchFresh 0 (mkMsg qFresh) qFresh
    bigCache (mkAnsA qFresh 5) rfl rfl bigCache_peek_fresh (by decide) rfl rfl
    rfl rfl (by decide)
  refine ⟨by rw [h1], by rw [h1], ?_⟩
  rw [h1]
  dsimp only
  rw [hR, h2]
  dsimp only [Option.map]
  rw [newCache_peek_tgt]
